import Mathlib

/-!
Verification of the recurring-transaction engine of the budgetbuddy
repository (backend file src/controllers/recurringController.js).

The engine works on calendar dates only (the processor truncates the
time-of-day with setHours(0,0,0,0)), so a JavaScript Date is embedded as a
year/month/day triple with ECMAScript month-0-based numbering and
ECMAScript normalization semantics for the setDate / setMonth /
setFullYear mutators (MakeDay: out-of-range day or month components carry
over into adjacent months and years).
-/

/-- A JavaScript Date value restricted to its calendar-date components.
The month is 0-based (0 = January .. 11 = December) exactly as in
ECMAScript; in normalized form 0 <= month <= 11 and 1 <= day <=
daysInMonth year month. -/
structure JSDate where
  year : Int
  month : Int
  day : Int
deriving DecidableEq, Repr

/-- Gregorian leap-year rule, as written in the source's yearly branch:
(year % 4 === 0 && year % 100 !== 0) || (year % 400 === 0).  The
divisibility tests agree between the JavaScript remainder and Lean's
emod, so the translation is exact for every integer year. -/
def isLeapYear (y : Int) : Bool :=
  (y % 4 == 0 && y % 100 != 0) || (y % 400 == 0)

/-- Number of days of month m (0-based) of year y, for normalized m. -/
def daysInMonth (y m : Int) : Int :=
  if m == 1 then (if isLeapYear y then 29 else 28)
  else if m == 3 || m == 5 || m == 8 || m == 10 then 30
  else 31

/-- ECMAScript month normalization: year' = y + floor(m / 12),
month' = m modulo 12 (non-negative).  Written with emod/ediv so that
omega can reason about it. -/
def normMonth (y m : Int) : Int × Int :=
  (y + (m - m % 12) / 12, m % 12)

/-- Day normalization of ECMAScript MakeDay: starting from a
month-normalized (y, m) and an arbitrary integer day component, carry
whole months until the day falls inside the month.  The fuel argument
bounds the number of month-carries; every use in this development needs
at most two. -/
def normDayIter : Nat → Int → Int → Int → JSDate
  | 0, y, m, d => ⟨y, m, d⟩
  | fuel + 1, y, m, d =>
    if d < 1 then
      let p := normMonth y (m - 1)
      normDayIter fuel p.1 p.2 (d + daysInMonth p.1 p.2)
    else if d ≤ daysInMonth y m then ⟨y, m, d⟩
    else
      let p := normMonth y (m + 1)
      normDayIter fuel p.1 p.2 (d - daysInMonth y m)

/-- ECMAScript MakeDay on calendar components: normalize the month, then
the day. -/
def makeDay (y m d : Int) : JSDate :=
  let p := normMonth y m
  normDayIter 130 p.1 p.2 d

/-- JavaScript date.setDate(d). -/
def setDate (dt : JSDate) (d : Int) : JSDate :=
  makeDay dt.year dt.month d

/-- JavaScript date.setMonth(m). -/
def setMonth (dt : JSDate) (m : Int) : JSDate :=
  makeDay dt.year m dt.day

/-- JavaScript date.setFullYear(y). -/
def setFullYear (dt : JSDate) (y : Int) : JSDate :=
  makeDay y dt.month dt.day

/-- A normalized calendar date: month in range and day inside the month. -/
def JSDate.Valid (dt : JSDate) : Prop :=
  0 ≤ dt.month ∧ dt.month ≤ 11 ∧ 1 ≤ dt.day ∧ dt.day ≤ daysInMonth dt.year dt.month

instance (dt : JSDate) : Decidable dt.Valid := by
  unfold JSDate.Valid; infer_instance

/-- Chronological order on normalized dates (JavaScript compares Dates by
time value; on normalized calendar dates that is the lexicographic order
on year, month, day).  Strict version, date a < date b. -/
def dateLt (a b : JSDate) : Bool :=
  decide (a.year < b.year ∨ (a.year = b.year ∧ a.month < b.month) ∨
    (a.year = b.year ∧ a.month = b.month ∧ a.day < b.day))

/-- Non-strict chronological order, date a <= date b. -/
def dateLe (a b : JSDate) : Bool :=
  decide (a.year < b.year ∨ (a.year = b.year ∧ a.month < b.month) ∨
    (a.year = b.year ∧ a.month = b.month ∧ a.day ≤ b.day))

/-- Recurrence frequency.  The four values accepted by the validation in
createRecurringExpense; the controller's default-case throw for any other
string is unreachable for validated templates, so the embedding uses an
enumeration. -/
inductive Frequency
  | daily
  | weekly
  | monthly
  | yearly
deriving DecidableEq, Repr

/-- Direct translation of calculateNextDate of recurringController.js.
Each branch performs the same mutator calls as the source on a copy of
the input date:
daily and weekly call setDate(getDate() + 1 or + 7); monthly remembers
originalDay, calls setMonth(getMonth() + 1) and, when the resulting
day-of-month differs, setDate(0); yearly calls setFullYear(getFullYear()
+ 1) and then, when the resulting date has getMonth() === 2 and
getDate() === 29, clamps to day 28 of that month in non-leap years. -/
def calculateNextDate (currentDate : JSDate) (frequency : Frequency) : JSDate :=
  match frequency with
  | .daily => setDate currentDate (currentDate.day + 1)
  | .weekly => setDate currentDate (currentDate.day + 7)
  | .monthly =>
    let originalDay := currentDate.day
    let next := setMonth currentDate (currentDate.month + 1)
    if next.day ≠ originalDay then setDate next 0 else next
  | .yearly =>
    let next := setFullYear currentDate (currentDate.year + 1)
    if next.month = 2 ∧ next.day = 29 then
      let year := next.year
      let isLeap := (year % 4 == 0 && year % 100 != 0) || (year % 400 == 0)
      if !isLeap then setDate next 28 else next
    else next

/-! Normalization lemmas for the date embedding. -/

lemma normMonth_id (y m : Int) (h0 : 0 ≤ m) (h1 : m ≤ 11) : normMonth y m = (y, m) := by
  unfold normMonth
  have h2 : m % 12 = m := Int.emod_eq_of_lt h0 (by omega)
  rw [h2]
  simp

lemma normMonth_twelve (y : Int) : normMonth y 12 = (y + 1, 0) := by
  unfold normMonth; norm_num

lemma normMonth_neg_one (y : Int) : normMonth y (-1) = (y - 1, 11) := by
  unfold normMonth; norm_num; ring

lemma daysInMonth_ge (y m : Int) : 28 ≤ daysInMonth y m := by
  unfold daysInMonth
  split
  · split <;> omega
  · split <;> omega

lemma daysInMonth_le (y m : Int) : daysInMonth y m ≤ 31 := by
  unfold daysInMonth
  split
  · split <;> omega
  · split <;> omega

lemma daysInMonth_31 (y m : Int) (h1 : m ≠ 1) (h3 : m ≠ 3) (h5 : m ≠ 5)
    (h8 : m ≠ 8) (h10 : m ≠ 10) : daysInMonth y m = 31 := by
  unfold daysInMonth
  simp [h1, h3, h5, h8, h10]

lemma daysInMonth_30 (y m : Int) (h : m = 3 ∨ m = 5 ∨ m = 8 ∨ m = 10) :
    daysInMonth y m = 30 := by
  unfold daysInMonth
  rcases h with h | h | h | h <;> subst h <;> norm_num

lemma normDayIter_done (f : Nat) (y m d : Int) (h1 : 1 ≤ d)
    (h2 : d ≤ daysInMonth y m) : normDayIter (f + 1) y m d = ⟨y, m, d⟩ := by
  unfold normDayIter
  rw [if_neg (by omega), if_pos h2]

lemma makeDay_in_range (y m d : Int) (hm0 : 0 ≤ m) (hm1 : m ≤ 11)
    (h1 : 1 ≤ d) (h2 : d ≤ daysInMonth y m) : makeDay y m d = ⟨y, m, d⟩ := by
  show normDayIter 130 (normMonth y m).1 (normMonth y m).2 d = _
  rw [normMonth_id y m hm0 hm1]
  exact normDayIter_done 129 y m d h1 h2

lemma makeDay_twelve (y d : Int) (h1 : 1 ≤ d) (h2 : d ≤ 31) :
    makeDay y 12 d = ⟨y + 1, 0, d⟩ := by
  show normDayIter 130 (normMonth y 12).1 (normMonth y 12).2 d = _
  rw [normMonth_twelve y]
  exact normDayIter_done 129 (y + 1) 0 d h1
    (by rw [daysInMonth_31 (y + 1) 0] <;> omega)

lemma makeDay_carry (y m d : Int) (hm0 : 0 ≤ m) (hm1 : m ≤ 10)
    (h1 : daysInMonth y m < d)
    (h2 : d ≤ daysInMonth y m + daysInMonth y (m + 1)) :
    makeDay y m d = ⟨y, m + 1, d - daysInMonth y m⟩ := by
  show normDayIter 130 (normMonth y m).1 (normMonth y m).2 d = _
  rw [normMonth_id y m hm0 (by omega)]
  show normDayIter (129 + 1) y m d = _
  unfold normDayIter
  rw [if_neg (by have := daysInMonth_ge y m; omega), if_neg (by omega)]
  rw [normMonth_id y (m + 1) (by omega) (by omega)]
  exact normDayIter_done 128 y (m + 1) _ (by omega) (by omega)

lemma makeDay_zero (y m : Int) (hm0 : 1 ≤ m) (hm1 : m ≤ 11) :
    makeDay y m 0 = ⟨y, m - 1, daysInMonth y (m - 1)⟩ := by
  show normDayIter 130 (normMonth y m).1 (normMonth y m).2 0 = _
  rw [normMonth_id y m (by omega) hm1]
  show normDayIter (129 + 1) y m 0 = _
  unfold normDayIter
  rw [if_pos (by omega)]
  rw [normMonth_id y (m - 1) (by omega) (by omega)]
  simp only [zero_add]
  exact normDayIter_done 128 y (m - 1) _
    (by have := daysInMonth_ge y (m - 1); omega) (by omega)

/-- Calendar-month advancement with end-of-month clamping, written from the
specification text of section 4.1 (the monthly rule) for comparison with
the source translation: same day-of-month in the next month when it
exists there, otherwise the last day of that month. -/
def monthlySpecAdvance (dt : JSDate) : JSDate :=
  let y2 := if dt.month = 11 then dt.year + 1 else dt.year
  let m2 := if dt.month = 11 then 0 else dt.month + 1
  if dt.day ≤ daysInMonth y2 m2 then ⟨y2, m2, dt.day⟩ else ⟨y2, m2, daysInMonth y2 m2⟩

/-- The monthly branch of calculateNextDate computes exactly
calendar-month advancement with end-of-month clamping. -/
lemma calculateNextDate_monthly (dt : JSDate) (h : dt.Valid) :
    calculateNextDate dt .monthly = monthlySpecAdvance dt := by
  obtain ⟨y, m, d⟩ := dt
  unfold JSDate.Valid at h
  dsimp only at h
  obtain ⟨hm0, hm1, hd1, hd2⟩ := h
  have hbranch : calculateNextDate ⟨y, m, d⟩ .monthly =
      (if (setMonth ⟨y, m, d⟩ (m + 1)).day ≠ d then setDate (setMonth ⟨y, m, d⟩ (m + 1)) 0
       else setMonth ⟨y, m, d⟩ (m + 1)) := rfl
  rcases (by omega : m ≤ 9 ∨ m = 10 ∨ m = 11) with hm | hm | hm
  · -- months with a successor month in the same year and possible clamping
    have hne : m ≠ 11 := by omega
    by_cases hfit : d ≤ daysInMonth y (m + 1)
    · have e1 : setMonth ⟨y, m, d⟩ (m + 1) = ⟨y, m + 1, d⟩ :=
        makeDay_in_range y (m + 1) d (by omega) (by omega) hd1 hfit
      rw [hbranch, e1]
      rw [if_neg (by simp)]
      simp [monthlySpecAdvance, hne, hfit]
    · have hs1 := daysInMonth_ge y (m + 1)
      have hs2 := daysInMonth_ge y (m + 1 + 1)
      have hs3 := daysInMonth_le y m
      have e1 : setMonth ⟨y, m, d⟩ (m + 1) = ⟨y, m + 2, d - daysInMonth y (m + 1)⟩ := by
        show makeDay y (m + 1) d = _
        rw [makeDay_carry y (m + 1) d (by omega) (by omega) (by omega) (by omega)]
        rw [show m + 1 + 1 = m + 2 by ring]
      have e2 : setDate (⟨y, m + 2, d - daysInMonth y (m + 1)⟩ : JSDate) 0 =
          ⟨y, m + 1, daysInMonth y (m + 1)⟩ := by
        show makeDay y (m + 2) 0 = _
        rw [makeDay_zero y (m + 2) (by omega) (by omega)]
        rw [show m + 2 - 1 = m + 1 by ring]
      rw [hbranch, e1]
      rw [if_pos (show (JSDate.mk y (m + 2) (d - daysInMonth y (m + 1))).day ≠ d by
        show d - daysInMonth y (m + 1) ≠ d; omega)]
      rw [e2]
      simp [monthlySpecAdvance, hne, hfit]
  · -- November: December is longer, never clamps
    subst hm
    have h30 : daysInMonth y 10 = 30 := daysInMonth_30 y 10 (by omega)
    have h31 : daysInMonth y 11 = 31 := daysInMonth_31 y 11 (by omega) (by omega) (by omega) (by omega) (by omega)
    have e1 : setMonth ⟨y, 10, d⟩ 11 = ⟨y, 11, d⟩ :=
      makeDay_in_range y 11 d (by omega) (by omega) hd1 (by omega)
    rw [show (10 : Int) + 1 = 11 by ring] at hbranch
    rw [hbranch, e1]
    rw [if_neg (by simp)]
    norm_num [monthlySpecAdvance, h31, show d ≤ 31 from by omega]
  · -- December: wraps to January of the next year, which has 31 days
    subst hm
    have h31 : daysInMonth y 11 = 31 := daysInMonth_31 y 11 (by omega) (by omega) (by omega) (by omega) (by omega)
    have h31b : daysInMonth (y + 1) 0 = 31 := daysInMonth_31 (y + 1) 0 (by omega) (by omega) (by omega) (by omega) (by omega)
    have e1 : setMonth ⟨y, 11, d⟩ 12 = ⟨y + 1, 0, d⟩ := by
      show makeDay y 12 d = _
      exact makeDay_twelve y d hd1 (by omega)
    rw [show (11 : Int) + 1 = 12 by ring] at hbranch
    rw [hbranch, e1]
    rw [if_neg (by simp)]
    norm_num [monthlySpecAdvance, h31b, show d ≤ 31 from by omega]

lemma dateLt_iff (a b : JSDate) : dateLt a b = true ↔
    (a.year < b.year ∨ (a.year = b.year ∧ a.month < b.month) ∨
     (a.year = b.year ∧ a.month = b.month ∧ a.day < b.day)) := by
  unfold dateLt; simp

lemma dateLe_iff (a b : JSDate) : dateLe a b = true ↔
    (a.year < b.year ∨ (a.year = b.year ∧ a.month < b.month) ∨
     (a.year = b.year ∧ a.month = b.month ∧ a.day ≤ b.day)) := by
  unfold dateLe; simp

lemma makeDay_carry_dec (y d : Int) (h1 : 31 < d) (h2 : d ≤ 62) :
    makeDay y 11 d = ⟨y + 1, 0, d - 31⟩ := by
  have h31 : daysInMonth y 11 = 31 :=
    daysInMonth_31 y 11 (by omega) (by omega) (by omega) (by omega) (by omega)
  have h31b : daysInMonth (y + 1) 0 = 31 :=
    daysInMonth_31 (y + 1) 0 (by omega) (by omega) (by omega) (by omega) (by omega)
  show normDayIter 130 (normMonth y 11).1 (normMonth y 11).2 d = _
  rw [normMonth_id y 11 (by omega) (by omega)]
  show normDayIter (129 + 1) y 11 d = _
  unfold normDayIter
  rw [if_neg (by omega), if_neg (by omega)]
  rw [show (11 : Int) + 1 = 12 by ring, normMonth_twelve y]
  rw [h31]
  exact normDayIter_done 128 (y + 1) 0 _ (by omega) (by omega)

lemma daysInMonth_ne_feb (y y' m : Int) (h : m ≠ 1) :
    daysInMonth y m = daysInMonth y' m := by
  unfold daysInMonth
  simp [h]

/-- calculateNextDate is strictly increasing on valid dates, for every
frequency: each branch moves at least one day forward. -/
lemma calculateNextDate_lt (dt : JSDate) (h : dt.Valid) (f : Frequency) :
    dateLt dt (calculateNextDate dt f) = true := by
  obtain ⟨y, m, d⟩ := dt
  unfold JSDate.Valid at h
  dsimp only at h
  obtain ⟨hm0, hm1, hd1, hd2⟩ := h
  cases f
  case daily =>
    show dateLt ⟨y, m, d⟩ (makeDay y m (d + 1)) = true
    by_cases hfit : d + 1 ≤ daysInMonth y m
    · rw [makeDay_in_range y m (d + 1) hm0 hm1 (by omega) hfit, dateLt_iff]
      dsimp only; omega
    · rcases (by omega : m ≤ 10 ∨ m = 11) with hm | hm
      · have hs := daysInMonth_ge y (m + 1)
        rw [makeDay_carry y m (d + 1) hm0 hm (by omega) (by omega), dateLt_iff]
        dsimp only; omega
      · subst hm
        have h31 : daysInMonth y 11 = 31 :=
          daysInMonth_31 y 11 (by omega) (by omega) (by omega) (by omega) (by omega)
        rw [makeDay_carry_dec y (d + 1) (by omega) (by omega), dateLt_iff]
        dsimp only; omega
  case weekly =>
    show dateLt ⟨y, m, d⟩ (makeDay y m (d + 7)) = true
    by_cases hfit : d + 7 ≤ daysInMonth y m
    · rw [makeDay_in_range y m (d + 7) hm0 hm1 (by omega) hfit, dateLt_iff]
      dsimp only; omega
    · rcases (by omega : m ≤ 10 ∨ m = 11) with hm | hm
      · have hs := daysInMonth_ge y (m + 1)
        rw [makeDay_carry y m (d + 7) hm0 hm (by omega) (by omega), dateLt_iff]
        dsimp only; omega
      · subst hm
        have h31 : daysInMonth y 11 = 31 :=
          daysInMonth_31 y 11 (by omega) (by omega) (by omega) (by omega) (by omega)
        rw [makeDay_carry_dec y (d + 7) (by omega) (by omega), dateLt_iff]
        dsimp only; omega
  case monthly =>
    rw [calculateNextDate_monthly ⟨y, m, d⟩ ⟨hm0, hm1, hd1, hd2⟩]
    unfold monthlySpecAdvance
    dsimp only
    by_cases hm : m = 11 <;> simp only [hm, if_true, if_false, reduceIte] <;>
      split <;> rw [dateLt_iff] <;> dsimp only <;> omega
  case yearly =>
    have hyb : ∀ e : JSDate, e.year = y + 1 → dateLt ⟨y, m, d⟩ e = true := by
      intro e he
      rw [dateLt_iff]
      dsimp only
      omega
    show dateLt ⟨y, m, d⟩
      (let next := makeDay (y + 1) m d;
       if next.month = 2 ∧ next.day = 29 then
         if !((next.year % 4 == 0 && next.year % 100 != 0) || (next.year % 400 == 0)) then
           setDate next 28
         else next
       else next) = true
    by_cases hfit : d ≤ daysInMonth (y + 1) m
    · rw [makeDay_in_range (y + 1) m d hm0 hm1 hd1 hfit]
      dsimp only
      split
      · split
        · have e28 : setDate (⟨y + 1, m, d⟩ : JSDate) 28 = ⟨y + 1, m, 28⟩ := by
            show makeDay (y + 1) m 28 = _
            exact makeDay_in_range (y + 1) m 28 hm0 hm1 (by omega)
              (by have := daysInMonth_ge (y + 1) m; omega)
          rw [e28]
          exact hyb _ rfl
        · exact hyb _ rfl
      · exact hyb _ rfl
    · have hmfeb : m = 1 := by
        by_contra hne
        rw [daysInMonth_ne_feb y (y + 1) m hne] at hd2
        omega
      subst hmfeb
      have hd28 : daysInMonth (y + 1) 1 = 28 ∧ d = 29 := by
        have ha : daysInMonth (y + 1) 1 ≥ 28 := daysInMonth_ge (y + 1) 1
        have hb : daysInMonth y 1 ≤ 29 := by
          unfold daysInMonth isLeapYear
          norm_num
          split <;> omega
        omega
      obtain ⟨hd28a, hd28b⟩ := hd28
      have e1 : makeDay (y + 1) 1 d = ⟨y + 1, 2, 1⟩ := by
        have h31 : daysInMonth (y + 1) (1 + 1) = 31 :=
          daysInMonth_31 (y + 1) (1 + 1) (by norm_num) (by norm_num) (by norm_num)
            (by norm_num) (by norm_num)
        rw [makeDay_carry (y + 1) 1 d (by omega) (by omega) (by omega) (by omega)]
        rw [hd28a]
        simp only [JSDate.mk.injEq]
        exact ⟨trivial, by norm_num, by omega⟩
      rw [e1]
      norm_num
      exact hyb _ rfl

/-- C4: for every valid date, calculateNextDate with monthly frequency is
the same day-of-month in the next calendar month when that day exists
there, and otherwise the last valid day of that next month; and it is not
computed by adding a fixed 30 days (adding 30 days disagrees with the
monthly branch, for instance on Jan 31 2025). -/
theorem c4_monthly_calendar_advance (dt : JSDate) (h : dt.Valid) :
    calculateNextDate dt .monthly = monthlySpecAdvance dt ∧
    ¬ (∀ e : JSDate, e.Valid → calculateNextDate e .monthly = setDate e (e.day + 30)) := by
  refine ⟨calculateNextDate_monthly dt h, fun hall => ?_⟩
  have h1 := hall ⟨2025, 0, 31⟩ (by decide)
  exact absurd h1 (by decide)

/-- C4 witness: the theorem applied at June 15 2025. -/
theorem c4_monthly_calendar_advance_witness :
    calculateNextDate ⟨2025, 5, 15⟩ .monthly = monthlySpecAdvance ⟨2025, 5, 15⟩ ∧
    ¬ (∀ e : JSDate, e.Valid → calculateNextDate e .monthly = setDate e (e.day + 30)) :=
  c4_monthly_calendar_advance ⟨2025, 5, 15⟩ (by decide)

/-- C9 counterexample: April 30 2025 (month index 3) is the last day of
its month, but calculateNextDate maps it to May 30 2025, and May has 31
days, so the result is not the last day of the following month. -/
theorem c9_monthly_last_day_counterexample :
    (JSDate.mk 2025 3 30).Valid ∧
    (JSDate.mk 2025 3 30).day = daysInMonth 2025 3 ∧
    calculateNextDate ⟨2025, 3, 30⟩ .monthly = ⟨2025, 4, 30⟩ ∧
    daysInMonth 2025 4 = 31 := by decide

/-- C9 amended: for every valid date that is the last day of its month,
calculateNextDate with monthly frequency lands in the following month on
the smaller of the original day-of-month and that month's length - the
last day of the following month exactly when the following month is not
longer than the current one, and the same (non-last) day-of-month
otherwise. -/
theorem c9_monthly_last_day_amended (y m d y2 m2 : Int) (h : JSDate.Valid ⟨y, m, d⟩)
    (hlast : d = daysInMonth y m)
    (hy2 : y2 = if m = 11 then y + 1 else y)
    (hm2 : m2 = if m = 11 then 0 else m + 1) :
    calculateNextDate ⟨y, m, d⟩ .monthly = ⟨y2, m2, min d (daysInMonth y2 m2)⟩ := by
  rw [calculateNextDate_monthly _ h]
  unfold monthlySpecAdvance
  dsimp only
  subst hy2 hm2
  rcases eq_or_ne m 11 with hm | hm
  · subst hm
    rw [if_pos rfl, if_pos rfl]
    rcases le_or_lt d (daysInMonth (y + 1) 0) with hc | hc
    · rw [if_pos hc, min_eq_left hc]
    · rw [if_neg (not_le.mpr hc), min_eq_right (le_of_lt hc)]
  · rw [if_neg hm, if_neg hm]
    rcases le_or_lt d (daysInMonth y (m + 1)) with hc | hc
    · rw [if_pos hc, min_eq_left hc]
    · rw [if_neg (not_le.mpr hc), min_eq_right (le_of_lt hc)]

/-- C9 amended witness: Jan 31 2025 advances to Feb 28 2025, the last day
of February. -/
theorem c9_monthly_last_day_amended_witness :
    calculateNextDate ⟨2025, 0, 31⟩ .monthly = ⟨2025, 1, min 31 (daysInMonth 2025 1)⟩ :=
  c9_monthly_last_day_amended 2025 0 31 2025 1 (by decide) (by decide)
    (by decide) (by decide)

/-- C1 (evaluation of the code at the failing input): for Feb 29 2024
(month index 1) with yearly frequency, calculateNextDate returns Mar 1
2025 (month index 2, day 1), not the Feb 28 2025 the claim requires.  The
setFullYear overflow turns the nonexistent Feb 29 2025 into Mar 1 2025
before the source's clamp test runs, and the test compares getMonth()
with 2 (March, since getMonth is 0-based) and getDate() with 29, which
the overflowed date never satisfies, so the clamp never fires for Feb 29
inputs. -/
theorem c1_yearly_feb29_code_behavior :
    calculateNextDate ⟨2024, 1, 29⟩ .yearly = ⟨2025, 2, 1⟩ ∧
    (⟨2025, 2, 1⟩ : JSDate) ≠ ⟨2025, 1, 28⟩ := by decide

/-!
Data model and operations of recurringController.js.  The controller
duplicates the whole pipeline for the expense-shaped and income-shaped
collections with identical logic (only the descriptive field differs:
category/description versus source), so the embedding models the
expense half; every statement about templates instantiates on it.
Monetary amounts enter the claims only as copied fields, so they are
embedded as integers.
-/

/-- A recurringExpense row of the Prisma schema: the recurrence template. -/
structure RecurringTemplate where
  id : Nat
  userId : Nat
  amount : Int
  description : String
  category : String
  frequency : Frequency
  startDate : JSDate
  nextDate : JSDate
  endDate : Option JSDate
  isActive : Bool
deriving DecidableEq, Repr

/-- An expense row as created by the batch processor: a generated
transaction record carrying a back-reference to its template. -/
structure Expense where
  userId : Nat
  amount : Int
  description : String
  category : String
  date : JSDate
  isRecurring : Bool
  recurringId : Nat
deriving DecidableEq, Repr

/-- The persistent store: the recurring-expense templates and the
generated expense records. -/
structure Store where
  recurringExpenses : List RecurringTemplate
  expenses : List Expense
deriving DecidableEq, Repr

/-- prisma.recurringExpense.update({ where: { id }, data: f }): rewrite
the rows whose id matches. -/
def updateTemplate (ts : List RecurringTemplate) (i : Nat)
    (f : RecurringTemplate → RecurringTemplate) : List RecurringTemplate :=
  ts.map (fun t => if t.id = i then f t else t)

/-- prisma.recurringExpense.findUnique({ where: { id } }). -/
def getTemplate (s : Store) (i : Nat) : Option RecurringTemplate :=
  s.recurringExpenses.find? (fun t => t.id == i)

/-- The guard recurring.endDate && recurring.endDate < today of the
processing loop (a Date object is always truthy, so only presence and
the comparison matter). -/
def expiredCheck (r : RecurringTemplate) (today : JSDate) : Bool :=
  match r.endDate with
  | some e => dateLt e today
  | none => false

/-- The prisma.expense.create data of the processing loop: a record
dated at the template's stored nextDate. -/
def mkExpenseRecord (recurring : RecurringTemplate) : Expense :=
  { userId := recurring.userId, amount := recurring.amount,
    description := recurring.description, category := recurring.category,
    date := recurring.nextDate, isRecurring := true,
    recurringId := recurring.id }

/-- The guard recurring.endDate && nextDate > recurring.endDate. -/
def shouldDeactivateCheck (r : RecurringTemplate) (nextDate : JSDate) : Bool :=
  match r.endDate with
  | some e => dateLt e nextDate
  | none => false

/-- One iteration of the for-loop of processRecurringTransactions over a
due template: either deactivate an already-expired template and skip
generation, or create the expense record, then advance nextDate (and
deactivate when the advanced date passes endDate) in a second write.
Returns the new store and the increment of expensesCreated. -/
def processExpenseTemplate (today : JSDate) (s : Store)
    (recurring : RecurringTemplate) : Store × Nat :=
  if expiredCheck recurring today then
    ({ s with recurringExpenses :=
        (updateTemplate s.recurringExpenses recurring.id
          (fun t => { t with isActive := false })) }, 0)
  else
    let nextDate := calculateNextDate recurring.nextDate recurring.frequency
    ({ recurringExpenses :=
        (updateTemplate s.recurringExpenses recurring.id
          (fun t => { t with nextDate := nextDate,
                             isActive := !(shouldDeactivateCheck recurring nextDate) })),
       expenses := s.expenses ++ [mkExpenseRecord recurring] }, 1)

/-- The for-loop of processRecurringTransactions: iterate over the
snapshot list of due templates, threading the store and summing the
created count. -/
def processDueList (today : JSDate) :
    List RecurringTemplate → Store → Store × Nat
  | [], s => (s, 0)
  | r :: rest, s =>
    let p := processExpenseTemplate today s r
    let q := processDueList today rest p.1
    (q.1, p.2 + q.2)

/-- The findMany query of processRecurringTransactions: active templates
with nextDate <= today. -/
def dueList (today : JSDate) (s : Store) : List RecurringTemplate :=
  s.recurringExpenses.filter (fun r => r.isActive && dateLe r.nextDate today)

/-- processRecurringTransactions, expense half: query the due templates,
process each, and report (expensesCreated, totalProcessed).  The today
argument is the date the handler computes with setHours(0,0,0,0), the
asOf of the specification.  (In the source totalProcessed additionally
adds dueIncomes.length from the identical income half.) -/
def processRecurringTransactions (today : JSDate) (s : Store) :
    Store × Nat × Nat :=
  let dueExpenses := dueList today s
  let p := processDueList today dueExpenses s
  (p.1, p.2, dueExpenses.length)

/-- The distinct error responses of the controller: 404 (not found), 403
(not authorized) and 400 (validation failure). -/
inductive ApiError
  | notFound
  | notAuthorized
  | invalidInput
deriving DecidableEq, Repr

/-- The request body of updateRecurringExpense after the handler deletes
updates.userId, updates.startDate and updates.createdAt: every remaining
model field may be supplied, including nextDate, which the handler does
not strip.  Fields of the body that are not columns of the model are
omitted as orthogonal. -/
structure UpdatePayload where
  amount : Option Int
  description : Option String
  category : Option String
  frequency : Option Frequency
  nextDate : Option JSDate
  endDate : Option JSDate
  isActive : Option Bool
deriving DecidableEq, Repr

/-- The validation updates.amount !== undefined && updates.amount <= 0. -/
def amountInvalid (u : UpdatePayload) : Bool :=
  match u.amount with
  | some a => decide (a ≤ 0)
  | none => false

/-- The prisma.recurringExpense.update({ data: updates }) write: each
supplied field overwrites the stored one. -/
def applyUpdates (t : RecurringTemplate) (u : UpdatePayload) : RecurringTemplate :=
  { t with
    amount := u.amount.getD t.amount,
    description := u.description.getD t.description,
    category := u.category.getD t.category,
    frequency := u.frequency.getD t.frequency,
    nextDate := u.nextDate.getD t.nextDate,
    endDate := (match u.endDate with | some e => some e | none => t.endDate),
    isActive := u.isActive.getD t.isActive }

/-- createRecurringExpense: validates amount > 0 and, when an end date is
given, endDate strictly after startDate, then inserts a template with
nextDate = startDate and isActive = true.  Missing-field and
invalid-frequency rejections are represented by the typing of the
arguments. -/
def createRecurringExpense (userId newId : Nat) (amount : Int)
    (description category : String) (frequency : Frequency)
    (startDate : JSDate) (endDate : Option JSDate) (s : Store) :
    Except ApiError Store :=
  if amount ≤ 0 then .error .invalidInput
  else
    match endDate with
    | some e =>
      if dateLe e startDate then .error .invalidInput
      else .ok { s with recurringExpenses := s.recurringExpenses ++
        [{ id := newId, userId := userId, amount := amount,
           description := description, category := category,
           frequency := frequency, startDate := startDate,
           nextDate := startDate, endDate := some e, isActive := true }] }
    | none => .ok { s with recurringExpenses := s.recurringExpenses ++
        [{ id := newId, userId := userId, amount := amount,
           description := description, category := category,
           frequency := frequency, startDate := startDate,
           nextDate := startDate, endDate := none, isActive := true }] }

/-- updateRecurringExpense: findUnique by id; 404 when absent; 403 when
owned by another user; 400 when the supplied amount is non-positive;
otherwise apply the updates. -/
def updateRecurringExpense (userId i : Nat) (u : UpdatePayload) (s : Store) :
    Except ApiError Store :=
  match s.recurringExpenses.find? (fun t => t.id == i) with
  | none => .error .notFound
  | some existing =>
    if existing.userId ≠ userId then .error .notAuthorized
    else if amountInvalid u then .error .invalidInput
    else .ok { s with recurringExpenses :=
      (updateTemplate s.recurringExpenses i (fun t => applyUpdates t u)) }

/-- deleteRecurringExpense: findUnique by id; 404 when absent; 403 when
owned by another user; otherwise delete the template (generated expense
records are not touched). -/
def deleteRecurringExpense (userId i : Nat) (s : Store) :
    Except ApiError Store :=
  match s.recurringExpenses.find? (fun t => t.id == i) with
  | none => .error .notFound
  | some existing =>
    if existing.userId ≠ userId then .error .notAuthorized
    else .ok { s with recurringExpenses :=
      (s.recurringExpenses.filter (fun t => t.id != i)) }

/-!
Failure-injected processor.  Each prisma write of the loop either
persists or throws; the handler has a single try/catch around the whole
body, so a throw stops the loop with every earlier write persisted and
the handler answers 500 without counts.  The writes of one run are
numbered from 0 and failAt names the one that throws; a failed write
persists nothing.  The error value is the store as persisted at the
moment of the throw.
-/

/-- One loop iteration of the failure-injected processor.  wc is the
index of the next write.  On success, returns store, next write index,
and the expensesCreated increment. -/
def processExpenseTemplateFail (today : JSDate) (failAt wc : Nat) (s : Store)
    (recurring : RecurringTemplate) : Except Store (Store × Nat × Nat) :=
  if expiredCheck recurring today then
    if wc = failAt then .error s
    else .ok ({ s with recurringExpenses :=
      (updateTemplate s.recurringExpenses recurring.id
        (fun t => { t with isActive := false })) }, wc + 1, 0)
  else
    if wc = failAt then .error s
    else
      let s1 : Store := { s with expenses := s.expenses ++ [mkExpenseRecord recurring] }
      let nextDate := calculateNextDate recurring.nextDate recurring.frequency
      if wc + 1 = failAt then .error s1
      else .ok ({ s1 with recurringExpenses :=
        (updateTemplate s1.recurringExpenses recurring.id
          (fun t => { t with nextDate := nextDate,
                             isActive := !(shouldDeactivateCheck recurring nextDate) })) },
        wc + 2, 1)

/-- The loop of the failure-injected processor: a throw aborts the
remaining iterations. -/
def processDueListFail (today : JSDate) (failAt : Nat) :
    List RecurringTemplate → Store → Nat → Except Store (Store × Nat × Nat)
  | [], s, wc => .ok (s, wc, 0)
  | r :: rest, s, wc =>
    match processExpenseTemplateFail today failAt wc s r with
    | .error sE => .error sE
    | .ok (s1, wc1, c) =>
      match processDueListFail today failAt rest s1 wc1 with
      | .error sE => .error sE
      | .ok (s2, wc2, n) => .ok (s2, wc2, c + n)

/-- processRecurringTransactions with one injected write failure: on a
throw the handler's catch returns the 500 response, carrying no counts;
the store remains as persisted. -/
def processRecurringTransactionsFail (today : JSDate) (failAt : Nat)
    (s : Store) : Except Store (Store × Nat × Nat) :=
  match processDueListFail today failAt (dueList today s) s 0 with
  | .error sE => .error sE
  | .ok (s', _, c) => .ok (s', c, (dueList today s).length)

/-!
Characterization lemmas for the batch processor.
-/

/-- The expense record one loop iteration creates for template r, if any:
none when the expiry guard fires, otherwise one record dated at the
stored nextDate. -/
def generatedExpense (today : JSDate) (r : RecurringTemplate) : Option Expense :=
  if expiredCheck r today then none else some (mkExpenseRecord r)

/-- The template write one loop iteration performs for the due snapshot
t on the stored row x of the same id. -/
def targetTransform (today : JSDate) (t x : RecurringTemplate) : RecurringTemplate :=
  if expiredCheck t today then { x with isActive := false }
  else { x with nextDate := calculateNextDate t.nextDate t.frequency,
                isActive := !(shouldDeactivateCheck t (calculateNextDate t.nextDate t.frequency)) }

lemma find_updateTemplate_ne (ts : List RecurringTemplate) (j i : Nat)
    (hne : j ≠ i) (f : RecurringTemplate → RecurringTemplate)
    (hf : ∀ x, (f x).id = x.id) :
    (updateTemplate ts j f).find? (fun t => t.id == i) =
      ts.find? (fun t => t.id == i) := by
  induction ts with
  | nil => rfl
  | cons h t ih =>
    show (((if h.id = j then f h else h) :: updateTemplate t j f).find?
      (fun t => t.id == i)) = _
    by_cases hi : h.id = i
    · have hj : ¬ h.id = j := by omega
      rw [if_neg hj]
      rw [List.find?_cons_of_pos _ (by simp [hi]),
        List.find?_cons_of_pos _ (by simp [hi])]
    · have hp : ¬ ((if h.id = j then f h else h).id == i) = true := by
        split <;> simp [hf, hi]
      rw [List.find?_cons_of_neg _ (by exact hp),
        List.find?_cons_of_neg _ (by simp [hi]), ih]

lemma find_updateTemplate_eq (ts : List RecurringTemplate) (i : Nat)
    (f : RecurringTemplate → RecurringTemplate)
    (hf : ∀ x, (f x).id = x.id) :
    (updateTemplate ts i f).find? (fun t => t.id == i) =
      (ts.find? (fun t => t.id == i)).map f := by
  induction ts with
  | nil => rfl
  | cons h t ih =>
    show (((if h.id = i then f h else h) :: updateTemplate t i f).find?
      (fun t => t.id == i)) = _
    by_cases hi : h.id = i
    · rw [if_pos hi]
      rw [List.find?_cons_of_pos _ (by simp [hf, hi]),
        List.find?_cons_of_pos _ (by simp [hi])]
      rfl
    · rw [if_neg hi]
      rw [List.find?_cons_of_neg _ (by simp [hi]),
        List.find?_cons_of_neg _ (by simp [hi]), ih]

lemma find?_eq_of_mem_nodup (ts : List RecurringTemplate) (t : RecurringTemplate)
    (hN : (ts.map (fun x => x.id)).Nodup) (ht : t ∈ ts) :
    ts.find? (fun x => x.id == t.id) = some t := by
  induction ts with
  | nil => cases ht
  | cons h rest ih =>
    rcases List.mem_cons.mp ht with rfl | hmem
    · exact List.find?_cons_of_pos _ (by simp)
    · have hne : ¬ (h.id == t.id) = true := by
        simp only [List.map_cons, List.nodup_cons] at hN
        have : t.id ∈ rest.map (fun x => x.id) := List.mem_map.mpr ⟨t, hmem, rfl⟩
        simp only [beq_iff_eq]
        intro he
        exact hN.1 (he ▸ this)
      rw [List.find?_cons_of_neg _ (by exact hne)]
      exact ih (by simp only [List.map_cons, List.nodup_cons] at hN; exact hN.2) hmem

lemma processExpenseTemplate_expenses (today : JSDate) (s : Store)
    (r : RecurringTemplate) :
    (processExpenseTemplate today s r).1.expenses =
      s.expenses ++ (generatedExpense today r).toList := by
  unfold processExpenseTemplate generatedExpense
  by_cases hx : expiredCheck r today
  · rw [if_pos hx, if_pos hx]
    simp
  · rw [if_neg hx, if_neg hx]
    rfl

lemma processExpenseTemplate_find_ne (today : JSDate) (s : Store)
    (r : RecurringTemplate) (i : Nat) (hne : r.id ≠ i) :
    (processExpenseTemplate today s r).1.recurringExpenses.find? (fun t => t.id == i) =
      s.recurringExpenses.find? (fun t => t.id == i) := by
  unfold processExpenseTemplate
  by_cases hx : expiredCheck r today
  · rw [if_pos hx]
    exact find_updateTemplate_ne _ _ _ hne _ (by intro x; rfl)
  · rw [if_neg hx]
    exact find_updateTemplate_ne _ _ _ hne _ (by intro x; rfl)

lemma processExpenseTemplate_find_eq (today : JSDate) (s : Store)
    (r : RecurringTemplate) :
    (processExpenseTemplate today s r).1.recurringExpenses.find? (fun t => t.id == r.id) =
      (s.recurringExpenses.find? (fun t => t.id == r.id)).map (targetTransform today r) := by
  unfold processExpenseTemplate
  by_cases hx : expiredCheck r today
  · rw [if_pos hx]
    rw [find_updateTemplate_eq _ _ _ (by intro x; rfl)]
    cases s.recurringExpenses.find? (fun t => t.id == r.id) with
    | none => rfl
    | some a => simp [targetTransform, hx]
  · rw [if_neg hx]
    rw [find_updateTemplate_eq _ _ _ (by intro x; rfl)]
    cases s.recurringExpenses.find? (fun t => t.id == r.id) with
    | none => rfl
    | some a => simp [targetTransform, hx]

lemma processDueList_expenses (today : JSDate) (due : List RecurringTemplate)
    (s : Store) :
    (processDueList today due s).1.expenses =
      s.expenses ++ due.filterMap (generatedExpense today) := by
  induction due generalizing s with
  | nil => simp [processDueList]
  | cons r rest ih =>
    show (processDueList today rest (processExpenseTemplate today s r).1).1.expenses = _
    rw [ih, processExpenseTemplate_expenses]
    cases hg : generatedExpense today r <;> simp [hg, List.filterMap_cons]

lemma processDueList_find_ne (today : JSDate) (due : List RecurringTemplate)
    (s : Store) (i : Nat) (h : ∀ r ∈ due, r.id ≠ i) :
    (processDueList today due s).1.recurringExpenses.find? (fun t => t.id == i) =
      s.recurringExpenses.find? (fun t => t.id == i) := by
  induction due generalizing s with
  | nil => rfl
  | cons r rest ih =>
    show (processDueList today rest (processExpenseTemplate today s r).1).1.recurringExpenses.find?
      (fun t => t.id == i) = _
    rw [ih _ (fun x hx => h x (List.mem_cons_of_mem r hx)),
      processExpenseTemplate_find_ne today s r i (h r (List.mem_cons_self r rest))]

lemma processDueList_find_target (today : JSDate)
    (due1 due2 : List RecurringTemplate) (t : RecurringTemplate) (s : Store)
    (h1 : ∀ r ∈ due1, r.id ≠ t.id) (h2 : ∀ r ∈ due2, r.id ≠ t.id) :
    (processDueList today (due1 ++ t :: due2) s).1.recurringExpenses.find?
        (fun x => x.id == t.id) =
      (s.recurringExpenses.find? (fun x => x.id == t.id)).map (targetTransform today t) := by
  induction due1 generalizing s with
  | nil =>
    show (processDueList today due2 (processExpenseTemplate today s t).1).1.recurringExpenses.find?
      (fun x => x.id == t.id) = _
    rw [processDueList_find_ne today due2 _ t.id h2,
      processExpenseTemplate_find_eq today s t]
  | cons r rest ih =>
    show (processDueList today (rest ++ t :: due2) (processExpenseTemplate today s r).1).1.recurringExpenses.find?
      (fun x => x.id == t.id) = _
    rw [ih _ (fun x hx => h1 x (List.mem_cons_of_mem r hx)),
      processExpenseTemplate_find_ne today s r t.id (h1 r (List.mem_cons_self r rest))]

lemma dateLt_irrefl (a : JSDate) : dateLt a a = false := by
  simp [dateLt]

lemma dateLt_of_not_dateLe (a b : JSDate) (h : dateLe a b = false) :
    dateLt b a = true := by
  simp only [dateLe, decide_eq_false_iff_not] at h
  rw [dateLt_iff]
  omega

lemma dateLe_lt_trans (a b c : JSDate) (h1 : dateLe a b = true)
    (h2 : dateLt b c = true) : dateLe a c = true := by
  rw [dateLe_iff] at h1 ⊢
  rw [dateLt_iff] at h2
  omega

lemma generatedExpense_eq (today : JSDate) (r : RecurringTemplate) (e : Expense)
    (h : generatedExpense today r = some e) :
    e = mkExpenseRecord r ∧ e.recurringId = r.id ∧ e.date = r.nextDate := by
  unfold generatedExpense at h
  by_cases hx : expiredCheck r today
  · rw [if_pos hx] at h
    cases h
  · rw [if_neg hx] at h
    injection h with h
    subst h
    exact ⟨rfl, rfl, rfl⟩

lemma dueList_mem (today : JSDate) (s : Store) (t : RecurringTemplate)
    (h : t ∈ s.recurringExpenses) (ha : t.isActive = true)
    (hd : dateLe t.nextDate today = true) : t ∈ dueList today s :=
  List.mem_filter.mpr ⟨h, by simp [ha, hd]⟩

lemma dueList_spec (today : JSDate) (s : Store) (r : RecurringTemplate)
    (h : r ∈ dueList today s) :
    r ∈ s.recurringExpenses ∧ r.isActive = true ∧ dateLe r.nextDate today = true := by
  have := List.mem_filter.mp h
  refine ⟨this.1, ?_, ?_⟩ <;> have h2 := this.2 <;> simp at h2 <;> tauto

lemma dueList_nodup_ids (today : JSDate) (s : Store)
    (h : (s.recurringExpenses.map (fun t => t.id)).Nodup) :
    ((dueList today s).map (fun t => t.id)).Nodup :=
  h.sublist (List.Sublist.map _ (List.filter_sublist _))

lemma nodup_id_inj (l : List RecurringTemplate)
    (hN : (l.map (fun x => x.id)).Nodup) (a b : RecurringTemplate)
    (ha : a ∈ l) (hb : b ∈ l) (hab : a.id = b.id) : a = b := by
  have h1 := find?_eq_of_mem_nodup l a hN ha
  have h2 := find?_eq_of_mem_nodup l b hN hb
  rw [hab] at h1
  rw [h1] at h2
  injection h2

lemma mem_nodup_split (due : List RecurringTemplate) (t : RecurringTemplate)
    (hmem : t ∈ due) (hN : (due.map (fun x => x.id)).Nodup) :
    ∃ due1 due2, due = due1 ++ t :: due2 ∧
      (∀ r ∈ due1, r.id ≠ t.id) ∧ (∀ r ∈ due2, r.id ≠ t.id) := by
  obtain ⟨due1, due2, rfl⟩ := List.append_of_mem hmem
  rw [List.map_append, List.map_cons] at hN
  obtain ⟨hA, hB, hdisj⟩ := List.nodup_append.mp hN
  refine ⟨due1, due2, rfl, ?_, ?_⟩
  · intro r hr he
    exact hdisj (List.mem_map.mpr ⟨r, hr, he⟩) (List.mem_cons_self _ _)
  · intro r hr he
    rw [List.nodup_cons] at hB
    exact hB.1 (List.mem_map.mpr ⟨r, hr, he.symm ▸ rfl⟩)

/-- Expense side of one whole batch run: the generated records are
exactly the filterMap of the due snapshot list, appended in order. -/
lemma processRecurringTransactions_expenses (today : JSDate) (s : Store) :
    (processRecurringTransactions today s).1.expenses =
      s.expenses ++ (dueList today s).filterMap (generatedExpense today) :=
  processDueList_expenses today (dueList today s) s

/-- Template side of one whole batch run, for an id that no due template
carries: the stored row is untouched. -/
lemma processRecurringTransactions_find_stable (today : JSDate) (s : Store)
    (i : Nat) (h : ∀ r ∈ dueList today s, r.id ≠ i) :
    getTemplate (processRecurringTransactions today s).1 i = getTemplate s i :=
  processDueList_find_ne today (dueList today s) s i h

/-- Template side of one whole batch run, for a due template in a store
with unique ids: the stored row receives exactly the write of its own
loop iteration. -/
lemma processRecurringTransactions_find_due (today : JSDate) (s : Store)
    (t : RecurringTemplate)
    (hN : (s.recurringExpenses.map (fun x => x.id)).Nodup)
    (hmem : t ∈ s.recurringExpenses) (hact : t.isActive = true)
    (hdl : dateLe t.nextDate today = true) :
    getTemplate (processRecurringTransactions today s).1 t.id =
      some (targetTransform today t t) := by
  have hdue : t ∈ dueList today s := dueList_mem today s t hmem hact hdl
  obtain ⟨due1, due2, hsplit, h1, h2⟩ :=
    mem_nodup_split (dueList today s) t hdue (dueList_nodup_ids today s hN)
  show (processDueList today (dueList today s) s).1.recurringExpenses.find?
    (fun x => x.id == t.id) = _
  rw [hsplit, processDueList_find_target today due1 due2 t s h1 h2,
    find?_eq_of_mem_nodup s.recurringExpenses t hN hmem]
  rfl

lemma filterMap_generated_nil (today : JSDate) (l : List RecurringTemplate)
    (i : Nat) (h : ∀ r ∈ l, r.id ≠ i) :
    (l.filterMap (generatedExpense today)).filter (fun e => e.recurringId == i) = [] := by
  induction l with
  | nil => rfl
  | cons r rest ih =>
    rw [List.filterMap_cons]
    cases hg : generatedExpense today r with
    | none => exact ih (fun x hx => h x (List.mem_cons_of_mem r hx))
    | some e =>
      rw [List.filter_cons]
      have hne : ¬ (e.recurringId == i) = true := by
        have := (generatedExpense_eq today r e hg).2.1
        simp [this, h r (List.mem_cons_self r rest)]
      rw [if_neg hne]
      exact ih (fun x hx => h x (List.mem_cons_of_mem r hx))

lemma filterMap_generated_count (today : JSDate) (l : List RecurringTemplate)
    (i : Nat) (hN : (l.map (fun t => t.id)).Nodup) :
    ((l.filterMap (generatedExpense today)).filter
      (fun e => e.recurringId == i)).length ≤ 1 := by
  induction l with
  | nil => simp
  | cons r rest ih =>
    rw [List.map_cons, List.nodup_cons] at hN
    rw [List.filterMap_cons]
    cases hg : generatedExpense today r with
    | none => exact ih hN.2
    | some e =>
      rw [List.filter_cons]
      by_cases he : (e.recurringId == i) = true
      · rw [if_pos he]
        have hei : e.recurringId = i := by simpa using he
        have hri : r.id = i := ((generatedExpense_eq today r e hg).2.1).symm.trans hei
        have hrest : ∀ x ∈ rest, x.id ≠ i := by
          intro x hx he2
          exact hN.1 (List.mem_map.mpr ⟨x, hx, by omega⟩)
        rw [filterMap_generated_nil today rest i hrest]
        simp
      · rw [if_neg he]
        exact ih hN.2

/-- C3: re-running the batch immediately does not double-create: if,
after a first processRecurringTransactions run at date D, every stored
template of a given id has nextDate past D, then the second run's due
query selects no template of that id, and every expense the second run
leaves in the store with that back-reference already existed after the
first run. -/
theorem c3_rerun_creates_nothing_for_advanced (D : JSDate) (s : Store) (i : Nat)
    (h : ∀ t ∈ (processRecurringTransactions D s).1.recurringExpenses,
      t.id = i → dateLe t.nextDate D = false) :
    (∀ r ∈ dueList D (processRecurringTransactions D s).1, r.id ≠ i) ∧
    (∀ e ∈ (processRecurringTransactions D (processRecurringTransactions D s).1).1.expenses,
      e.recurringId = i → e ∈ (processRecurringTransactions D s).1.expenses) := by
  have hdue : ∀ r ∈ dueList D (processRecurringTransactions D s).1, r.id ≠ i := by
    intro r hr he
    obtain ⟨hmem, _, hdl⟩ := dueList_spec D _ r hr
    rw [h r hmem he] at hdl
    cases hdl
  refine ⟨hdue, ?_⟩
  intro e he hei
  rw [processRecurringTransactions_expenses] at he
  rcases List.mem_append.mp he with h1 | h1
  · exact h1
  · obtain ⟨r, hr, hg⟩ := List.mem_filterMap.mp h1
    have := (generatedExpense_eq D r e hg).2.1
    exact absurd (this.symm.trans hei) (hdue r hr)

def c3Template : RecurringTemplate :=
  { id := 1, userId := 1, amount := 50, description := "gym", category := "health",
    frequency := .daily, startDate := ⟨2025, 0, 10⟩, nextDate := ⟨2025, 0, 10⟩,
    endDate := none, isActive := true }

def c3Store : Store := { recurringExpenses := [c3Template], expenses := [] }

/-- C3 witness: one daily template due exactly on D = Jan 10 2025; after
the first run its nextDate is Jan 11 2025 > D, and the theorem applies. -/
theorem c3_rerun_creates_nothing_for_advanced_witness :
    (∀ r ∈ dueList ⟨2025, 0, 10⟩ (processRecurringTransactions ⟨2025, 0, 10⟩ c3Store).1,
      r.id ≠ 1) ∧
    (∀ e ∈ (processRecurringTransactions ⟨2025, 0, 10⟩
        (processRecurringTransactions ⟨2025, 0, 10⟩ c3Store).1).1.expenses,
      e.recurringId = 1 →
      e ∈ (processRecurringTransactions ⟨2025, 0, 10⟩ c3Store).1.expenses) :=
  c3_rerun_creates_nothing_for_advanced ⟨2025, 0, 10⟩ c3Store 1 (by decide)

/-- C10: within a single batch run, at most one expense record is
created per template id, even when the stored nextDate lags far behind
today: the run appends exactly one batch of records, the records with a
given back-reference number at most one when template ids are unique,
and every appended record is the record of one due template, dated at
that template's stored (possibly lagging) nextDate - no backfill of
missed occurrences. -/
theorem c10_no_backfill_single_record (today : JSDate) (s : Store)
    (hN : (s.recurringExpenses.map (fun t => t.id)).Nodup) :
    ((processRecurringTransactions today s).1.expenses =
      s.expenses ++ (dueList today s).filterMap (generatedExpense today)) ∧
    (∀ i : Nat, (((dueList today s).filterMap (generatedExpense today)).filter
      (fun e => e.recurringId == i)).length ≤ 1) ∧
    (∀ e ∈ (dueList today s).filterMap (generatedExpense today),
      ∃ r ∈ s.recurringExpenses, r.isActive = true ∧
        dateLe r.nextDate today = true ∧ e = mkExpenseRecord r ∧ e.date = r.nextDate) := by
  refine ⟨processRecurringTransactions_expenses today s, ?_, ?_⟩
  · intro i
    exact filterMap_generated_count today _ i (dueList_nodup_ids today s hN)
  · intro e he
    obtain ⟨r, hr, hg⟩ := List.mem_filterMap.mp he
    obtain ⟨hmem, hact, hdl⟩ := dueList_spec today s r hr
    obtain ⟨h1, _, h3⟩ := generatedExpense_eq today r e hg
    exact ⟨r, hmem, hact, hdl, h1, h3⟩

def c10Template : RecurringTemplate :=
  { id := 3, userId := 2, amount := 1200, description := "rent", category := "housing",
    frequency := .monthly, startDate := ⟨2024, 0, 31⟩, nextDate := ⟨2024, 0, 31⟩,
    endDate := none, isActive := true }

def c10Store : Store := { recurringExpenses := [c10Template], expenses := [] }

/-- C10 witness: a monthly template lagging more than a year behind
today = June 15 2025 still yields at most one record per id, dated at
the stored nextDate Jan 31 2024. -/
theorem c10_no_backfill_single_record_witness :
    ((processRecurringTransactions ⟨2025, 5, 15⟩ c10Store).1.expenses =
      c10Store.expenses ++
        (dueList ⟨2025, 5, 15⟩ c10Store).filterMap (generatedExpense ⟨2025, 5, 15⟩)) ∧
    (∀ i : Nat, (((dueList ⟨2025, 5, 15⟩ c10Store).filterMap
        (generatedExpense ⟨2025, 5, 15⟩)).filter
      (fun e => e.recurringId == i)).length ≤ 1) ∧
    (∀ e ∈ (dueList ⟨2025, 5, 15⟩ c10Store).filterMap (generatedExpense ⟨2025, 5, 15⟩),
      ∃ r ∈ c10Store.recurringExpenses, r.isActive = true ∧
        dateLe r.nextDate ⟨2025, 5, 15⟩ = true ∧ e = mkExpenseRecord r ∧
        e.date = r.nextDate) :=
  c10_no_backfill_single_record ⟨2025, 5, 15⟩ c10Store (by decide)

/-- C7: a template whose endDate equals its nextDate equals asOf is still
processed: the expiry guard endDate < asOf does not fire on equality, so
one final expense dated nextDate is created, and the same template update
sets isActive to false because the advanced candidate date exceeds
endDate. -/
theorem c7_expiry_boundary_generates_then_deactivates (asOf : JSDate) (s : Store)
    (t : RecurringTemplate)
    (hN : (s.recurringExpenses.map (fun x => x.id)).Nodup)
    (hmem : t ∈ s.recurringExpenses)
    (hact : t.isActive = true)
    (hend : t.endDate = some asOf)
    (hnext : t.nextDate = asOf)
    (hv : asOf.Valid) :
    mkExpenseRecord t ∈ (processRecurringTransactions asOf s).1.expenses ∧
    getTemplate (processRecurringTransactions asOf s).1 t.id =
      some { t with nextDate := calculateNextDate t.nextDate t.frequency,
                    isActive := false } := by
  have hdl : dateLe t.nextDate asOf = true := by
    rw [hnext, dateLe_iff]
    omega
  have hexp : expiredCheck t asOf = false := by
    unfold expiredCheck
    rw [hend]
    show dateLt asOf asOf = false
    exact dateLt_irrefl asOf
  have hsd : shouldDeactivateCheck t (calculateNextDate t.nextDate t.frequency) = true := by
    unfold shouldDeactivateCheck
    rw [hend]
    show dateLt asOf (calculateNextDate t.nextDate t.frequency) = true
    rw [hnext]
    exact calculateNextDate_lt asOf hv t.frequency
  constructor
  · rw [processRecurringTransactions_expenses]
    refine List.mem_append_right _ (List.mem_filterMap.mpr
      ⟨t, dueList_mem asOf s t hmem hact hdl, ?_⟩)
    unfold generatedExpense
    rw [if_neg (by rw [hexp]; exact Bool.false_ne_true)]
  · rw [processRecurringTransactions_find_due asOf s t hN hmem hact hdl]
    unfold targetTransform
    rw [if_neg (by rw [hexp]; exact Bool.false_ne_true), hsd]
    rfl

def c7Template : RecurringTemplate :=
  { id := 9, userId := 4, amount := 15, description := "magazine", category := "leisure",
    frequency := .monthly, startDate := ⟨2024, 10, 15⟩, nextDate := ⟨2025, 0, 15⟩,
    endDate := some ⟨2025, 0, 15⟩, isActive := true }

def c7Store : Store := { recurringExpenses := [c7Template], expenses := [] }

/-- C7 witness: endDate = nextDate = asOf = Jan 15 2025; the final
expense is generated and the template is deactivated with nextDate
advanced to Feb 15 2025. -/
theorem c7_expiry_boundary_generates_then_deactivates_witness :
    mkExpenseRecord c7Template ∈
      (processRecurringTransactions ⟨2025, 0, 15⟩ c7Store).1.expenses ∧
    getTemplate (processRecurringTransactions ⟨2025, 0, 15⟩ c7Store).1 c7Template.id =
      some { c7Template with
        nextDate := calculateNextDate c7Template.nextDate c7Template.frequency,
        isActive := false } :=
  c7_expiry_boundary_generates_then_deactivates ⟨2025, 0, 15⟩ c7Store c7Template
    (by decide) (by decide) (by decide) (by decide) (by decide) (by decide)

deriving instance DecidableEq for Except

def c5Payload : UpdatePayload :=
  { amount := none, description := none, category := none, frequency := none,
    nextDate := none, endDate := none, isActive := none }

def c5OtherTemplate : RecurringTemplate :=
  { id := 7, userId := 2, amount := 20, description := "music", category := "fun",
    frequency := .weekly, startDate := ⟨2025, 1, 1⟩, nextDate := ⟨2025, 1, 1⟩,
    endDate := none, isActive := true }

def c5StoreOther : Store := { recurringExpenses := [c5OtherTemplate], expenses := [] }

def c5StoreEmpty : Store := { recurringExpenses := [], expenses := [] }

/-- C5 counterexample: caller user 1 updating or deleting template id 7
receives error notFound (404) when no such template exists, but the
distinct error notAuthorized (403) when the template exists and belongs
to user 2 - the two cases are distinguishable to the caller, so they do
not produce the same NotFound result. -/
theorem c5_notfound_vs_notauthorized_counterexample :
    updateRecurringExpense 1 7 c5Payload c5StoreOther =
      Except.error ApiError.notAuthorized ∧
    updateRecurringExpense 1 7 c5Payload c5StoreEmpty =
      Except.error ApiError.notFound ∧
    deleteRecurringExpense 1 7 c5StoreOther = Except.error ApiError.notAuthorized ∧
    deleteRecurringExpense 1 7 c5StoreEmpty = Except.error ApiError.notFound ∧
    ApiError.notAuthorized ≠ ApiError.notFound := by decide

/-- C5 amended: update and delete answer notFound (404) when no template
of the id exists and the distinct notAuthorized (403) when it exists but
belongs to a different owner; the two cases are distinguishable. -/
theorem c5_notfound_vs_notauthorized_amended (s : Store) (userId i : Nat)
    (u : UpdatePayload) :
    (getTemplate s i = none →
      updateRecurringExpense userId i u s = Except.error ApiError.notFound ∧
      deleteRecurringExpense userId i s = Except.error ApiError.notFound) ∧
    (∀ t, getTemplate s i = some t → t.userId ≠ userId →
      updateRecurringExpense userId i u s = Except.error ApiError.notAuthorized ∧
      deleteRecurringExpense userId i s = Except.error ApiError.notAuthorized) ∧
    ApiError.notFound ≠ ApiError.notAuthorized := by
  refine ⟨?_, ?_, by decide⟩
  · intro h
    unfold getTemplate at h
    constructor
    · unfold updateRecurringExpense
      rw [h]
    · unfold deleteRecurringExpense
      rw [h]
  · intro t h hne
    unfold getTemplate at h
    constructor
    · unfold updateRecurringExpense
      rw [h]
      simp [hne]
    · unfold deleteRecurringExpense
      rw [h]
      simp [hne]

/-- C5 amended witness: the amended theorem applied at the two concrete
stores. -/
theorem c5_notfound_vs_notauthorized_amended_witness :
    (updateRecurringExpense 1 7 c5Payload c5StoreEmpty =
        Except.error ApiError.notFound ∧
      deleteRecurringExpense 1 7 c5StoreEmpty = Except.error ApiError.notFound) ∧
    (updateRecurringExpense 1 7 c5Payload c5StoreOther =
        Except.error ApiError.notAuthorized ∧
      deleteRecurringExpense 1 7 c5StoreOther = Except.error ApiError.notAuthorized) :=
  ⟨(c5_notfound_vs_notauthorized_amended c5StoreEmpty 1 7 c5Payload).1 (by decide),
   (c5_notfound_vs_notauthorized_amended c5StoreOther 1 7 c5Payload).2.1
     c5OtherTemplate (by decide) (by decide)⟩

def c8CreateTemplate : RecurringTemplate :=
  { id := 1, userId := 1, amount := 50, description := "rent", category := "housing",
    frequency := .monthly, startDate := ⟨2025, 4, 10⟩, nextDate := ⟨2025, 4, 10⟩,
    endDate := none, isActive := true }

def c8CreateStore : Store := { recurringExpenses := [c8CreateTemplate], expenses := [] }

def c8NextDatePayload : UpdatePayload :=
  { amount := none, description := none, category := none, frequency := none,
    nextDate := some ⟨2020, 0, 1⟩, endDate := none, isActive := none }

def c8BrokenTemplate : RecurringTemplate :=
  { id := 1, userId := 1, amount := 50, description := "rent", category := "housing",
    frequency := .monthly, startDate := ⟨2025, 4, 10⟩, nextDate := ⟨2020, 0, 1⟩,
    endDate := none, isActive := true }

def c8BrokenStore : Store := { recurringExpenses := [c8BrokenTemplate], expenses := [] }

/-- C8 counterexample: the update handler strips only userId, startDate
and createdAt from the request body, not nextDate, so an owner update
carrying nextDate reaches a state - through create followed by update -
in which nextDate (Jan 1 2020) is strictly before startDate (May 10
2025), violating the claimed invariant. -/
theorem c8_invariant_counterexample :
    createRecurringExpense 1 1 50 "rent" "housing" .monthly ⟨2025, 4, 10⟩ none
      (Store.mk [] []) = Except.ok c8CreateStore ∧
    updateRecurringExpense 1 1 c8NextDatePayload c8CreateStore =
      Except.ok c8BrokenStore ∧
    getTemplate c8BrokenStore 1 = some c8BrokenTemplate ∧
    dateLt c8BrokenTemplate.nextDate c8BrokenTemplate.startDate = true := by decide

/-- C8 amended: nextOccurrence >= anchorDate holds at creation (where
additionally expiryDate, when present, is strictly after anchorDate), is
preserved by owner updates whose payload does not carry nextDate, and is
preserved by batch processing over stores with unique template ids and
valid dates; an owner update carrying nextDate can break it. -/
theorem c8_invariant_amended :
    (∀ (userId newId : Nat) (amount : Int) (description category : String)
        (frequency : Frequency) (startDate : JSDate) (endDate : Option JSDate)
        (s s' : Store),
      createRecurringExpense userId newId amount description category frequency
        startDate endDate s = Except.ok s' →
      ∀ t ∈ s'.recurringExpenses, t ∉ s.recurringExpenses →
        t.nextDate = t.startDate ∧
        (∀ e, t.endDate = some e → dateLt t.startDate e = true)) ∧
    (∀ (userId i : Nat) (u : UpdatePayload) (s s' : Store),
      u.nextDate = none →
      updateRecurringExpense userId i u s = Except.ok s' →
      ∀ t' ∈ s'.recurringExpenses, ∃ t ∈ s.recurringExpenses,
        t'.startDate = t.startDate ∧ t'.nextDate = t.nextDate) ∧
    (∀ (today : JSDate) (s : Store),
      (s.recurringExpenses.map (fun x => x.id)).Nodup →
      (∀ t ∈ s.recurringExpenses, t.nextDate.Valid ∧
        dateLe t.startDate t.nextDate = true) →
      ∀ t ∈ s.recurringExpenses, ∀ t',
        getTemplate (processRecurringTransactions today s).1 t.id = some t' →
        dateLe t'.startDate t'.nextDate = true) := by
  refine ⟨?_, ?_, ?_⟩
  · intro userId newId amount description category frequency startDate endDate s s'
      hok t ht hnot
    unfold createRecurringExpense at hok
    split at hok
    · cases hok
    · split at hok
      · split at hok
        · cases hok
        · injection hok with hok
          subst hok
          rcases List.mem_append.mp ht with hin | hin
          · exact absurd hin hnot
          · rw [List.mem_singleton] at hin
            subst hin
            refine ⟨rfl, ?_⟩
            intro e he
            injection he with he
            subst he
            rename_i hgt
            exact dateLt_of_not_dateLe _ _ (Bool.not_eq_true _ ▸ hgt)
      · injection hok with hok
        subst hok
        rcases List.mem_append.mp ht with hin | hin
        · exact absurd hin hnot
        · rw [List.mem_singleton] at hin
          subst hin
          exact ⟨rfl, fun e he => by cases he⟩
  · intro userId i u s s' hnone hok t' ht'
    unfold updateRecurringExpense at hok
    split at hok
    · cases hok
    · split at hok
      · cases hok
      · split at hok
        · cases hok
        · injection hok with hok
          subst hok
          obtain ⟨a, ha, hfa⟩ := List.mem_map.mp ht'
          by_cases hai : a.id = i
          · rw [if_pos hai] at hfa
            subst hfa
            exact ⟨a, ha, rfl, by simp [applyUpdates, hnone]⟩
          · rw [if_neg hai] at hfa
            subst hfa
            exact ⟨a, ha, rfl, rfl⟩
  · intro today s hN hinv t hmem t' hget
    by_cases hdue : t.isActive = true ∧ dateLe t.nextDate today = true
    · rw [processRecurringTransactions_find_due today s t hN hmem hdue.1 hdue.2] at hget
      injection hget with hget
      subst hget
      unfold targetTransform
      by_cases hx : expiredCheck t today
      · rw [if_pos hx]
        exact (hinv t hmem).2
      · rw [if_neg hx]
        exact dateLe_lt_trans _ _ _ (hinv t hmem).2
          (calculateNextDate_lt t.nextDate (hinv t hmem).1 t.frequency)
    · have hnd : ∀ r ∈ dueList today s, r.id ≠ t.id := by
        intro r hr he
        obtain ⟨hrm, hra, hrd⟩ := dueList_spec today s r hr
        have heq := nodup_id_inj s.recurringExpenses hN r t hrm hmem he
        subst heq
        exact hdue ⟨hra, hrd⟩
      rw [processRecurringTransactions_find_stable today s t.id hnd] at hget
      unfold getTemplate at hget
      rw [find?_eq_of_mem_nodup s.recurringExpenses t hN hmem] at hget
      injection hget with hget
      subst hget
      exact (hinv t hmem).2

def c8AmountPayload : UpdatePayload :=
  { amount := some 60, description := none, category := none, frequency := none,
    nextDate := none, endDate := none, isActive := none }

def c8UpdatedStore : Store :=
  { recurringExpenses :=
      [{ id := 1, userId := 1, amount := 60, description := "rent",
         category := "housing", frequency := .monthly, startDate := ⟨2025, 4, 10⟩,
         nextDate := ⟨2025, 4, 10⟩, endDate := none, isActive := true }],
    expenses := [] }

def c8ProcTemplate : RecurringTemplate :=
  { id := 2, userId := 1, amount := 10, description := "tea", category := "food",
    frequency := .weekly, startDate := ⟨2025, 2, 1⟩, nextDate := ⟨2025, 2, 8⟩,
    endDate := none, isActive := true }

def c8ProcStore : Store := { recurringExpenses := [c8ProcTemplate], expenses := [] }

/-- C8 amended witness: the three parts of the amended theorem applied
at concrete inputs: a create into the empty store, an amount-only owner
update, and one batch run over a weekly template. -/
theorem c8_invariant_amended_witness :
    (∀ t ∈ c8CreateStore.recurringExpenses, t ∉ (Store.mk [] []).recurringExpenses →
      t.nextDate = t.startDate ∧
      (∀ e, t.endDate = some e → dateLt t.startDate e = true)) ∧
    (∀ t' ∈ c8UpdatedStore.recurringExpenses, ∃ t ∈ c8CreateStore.recurringExpenses,
      t'.startDate = t.startDate ∧ t'.nextDate = t.nextDate) ∧
    (∀ t ∈ c8ProcStore.recurringExpenses, ∀ t',
      getTemplate (processRecurringTransactions ⟨2025, 2, 8⟩ c8ProcStore).1 t.id =
        some t' → dateLe t'.startDate t'.nextDate = true) :=
  ⟨c8_invariant_amended.1 1 1 50 "rent" "housing" .monthly ⟨2025, 4, 10⟩ none
      (Store.mk [] []) c8CreateStore (by decide),
   c8_invariant_amended.2.1 1 1 c8AmountPayload c8CreateStore c8UpdatedStore
      (by decide) (by decide),
   c8_invariant_amended.2.2 ⟨2025, 2, 8⟩ c8ProcStore (by decide) (by decide)⟩

def c2Template : RecurringTemplate :=
  { id := 1, userId := 1, amount := 100, description := "streaming", category := "fun",
    frequency := .monthly, startDate := ⟨2025, 2, 5⟩, nextDate := ⟨2025, 2, 5⟩,
    endDate := none, isActive := true }

def c2Store : Store := { recurringExpenses := [c2Template], expenses := [] }

/-- C2 (evaluation of the code at the failing input): the loop creates
the expense (write 0) and advances the template (write 1) as two
separate, non-transactional writes.  With one due template and a write
failure injected at write 1, the run stops in a persisted state that
contains the generated expense record - with its back-reference to the
template - while the template's nextDate is still the unadvanced Mar 5
2025, so it is still due.  This reachable failure state is exactly what
the claimed atomicity forbids. -/
theorem c2_create_and_advance_not_atomic :
    processRecurringTransactionsFail ⟨2025, 2, 5⟩ 1 c2Store =
      Except.error
        { recurringExpenses := [c2Template],
          expenses := [mkExpenseRecord c2Template] } ∧
    (mkExpenseRecord c2Template).recurringId = c2Template.id ∧
    (mkExpenseRecord c2Template).date = c2Template.nextDate ∧
    c2Template.nextDate = (⟨2025, 2, 5⟩ : JSDate) ∧
    dateLe c2Template.nextDate ⟨2025, 2, 5⟩ = true := by decide

def c6Template1 : RecurringTemplate :=
  { id := 1, userId := 1, amount := 30, description := "bus pass", category := "transport",
    frequency := .monthly, startDate := ⟨2025, 1, 3⟩, nextDate := ⟨2025, 1, 3⟩,
    endDate := none, isActive := true }

def c6Template2 : RecurringTemplate :=
  { id := 2, userId := 2, amount := 80, description := "electricity", category := "utilities",
    frequency := .monthly, startDate := ⟨2025, 1, 3⟩, nextDate := ⟨2025, 1, 3⟩,
    endDate := none, isActive := true }

def c6Store : Store :=
  { recurringExpenses := [c6Template1, c6Template2], expenses := [] }

/-- C6 counterexample: two due templates; the write creating the first
template's expense (write 0) fails.  The single try/catch around the
whole handler aborts the batch: the run answers with an error carrying
the unchanged store, so the second template was never processed (no
expense for it, nextDate unchanged, still due) and no aggregate counts
are returned - the sweep does not continue past the failure. -/
theorem c6_batch_abort_counterexample :
    processRecurringTransactionsFail ⟨2025, 1, 3⟩ 0 c6Store = Except.error c6Store ∧
    dueList ⟨2025, 1, 3⟩ c6Store = [c6Template1, c6Template2] ∧
    c6Store.expenses = [] ∧
    getTemplate c6Store 2 = some c6Template2 ∧
    dateLe c6Template2.nextDate ⟨2025, 1, 3⟩ = true := by decide

/-- C6 amended: a failure while processing one template aborts the whole
sweep through the handler-level try/catch instead of continuing: when
the first write of the batch fails, the run returns an error - hence no
aggregate counts - with the store unchanged, leaving the failing
template and every remaining due template still due with nextDate
untouched, to be retried by the next run. -/
theorem c6_failure_aborts_batch (today : JSDate) (s : Store)
    (h : dueList today s ≠ []) :
    processRecurringTransactionsFail today 0 s = Except.error s := by
  unfold processRecurringTransactionsFail
  cases hd : dueList today s with
  | nil => exact absurd hd h
  | cons r rest =>
    unfold processDueListFail processExpenseTemplateFail
    by_cases hx : expiredCheck r today
    · rw [if_pos hx, if_pos rfl]
    · rw [if_neg hx, if_pos rfl]

/-- C6 amended witness: the amended theorem applied at the concrete
two-template store. -/
theorem c6_failure_aborts_batch_witness :
    processRecurringTransactionsFail ⟨2025, 1, 3⟩ 0 c6Store = Except.error c6Store :=
  c6_failure_aborts_batch ⟨2025, 1, 3⟩ c6Store (by decide)
